import Mathlib

/-!
Verification of the benchmark-orchestration script `src/scripts/run.py` of the
clima-perf repository, as a shallow embedding in Lean 4.

The script is a linear orchestrator: resolve a commit of each tracked
repository as of a target date, assemble a run directory, drive the package
manager, copy configuration files, launch the simulation subprocess and collect
its artifacts.  The embedding models

* commit resolution (`get_latest_commit_at_date`, `get_repo_revs_at_date`) as
  pure functions of each repository's `origin/main` history, the current day
  and the target day;
* the orchestrator `main` as explicit state passing over a `World` holding a
  filesystem (a set of paths, directories and files alike) and a trace of
  external effects (fetches, directory creation and removal, archive
  extraction, package-manager invocations, file copies, the simulation run,
  moves and logged warnings).  A Python exception is an `Except.error` that
  propagates while the `World` reached so far is kept, exactly as an exception
  leaves the filesystem behind.

Machine integers do not occur: commit timestamps are mathematical integers
(seconds since the epoch) and calendar days are day numbers.
-/

namespace ClimaPerf

/-- A commit of a repository's `origin/main` history: its hash (`hexsha`) and
committer timestamp in seconds since the epoch. -/
structure Commit where
  rev : String
  timestamp : Int
deriving Repr, DecidableEq

/-- Seconds in one calendar day; instant `d * secondsPerDay` is the midnight
that starts day `d`. -/
def secondsPerDay : Int := 86400

/-- The `until` bound the script passes to `iter_commits`: the start of the day
after the target date (`datetime.fromisoformat(date) + timedelta(days=1)`), so
that commits made on the target date itself are included. -/
def untilBound (date : Nat) : Int := ((date : Int) + 1) * secondsPerDay

/-- A history as `iter_commits` yields it, newest first: timestamps are
non-increasing along the list. -/
def SortedHistory (history : List Commit) : Prop :=
  history.Pairwise (fun a b => b.timestamp ≤ a.timestamp)

instance (history : List Commit) : Decidable (SortedHistory history) := by
  unfold SortedHistory; infer_instance

/-- The errors the script can raise, one constructor per `raise` site or
failing library call: the two `ValueError`s, subprocess failures
(`subprocess.run(..., check=True)` and GitPython turn them into exceptions),
`shutil.Error` from a move whose nested destination already exists, and
`FileNotFoundError` from `shutil.rmtree` on a missing path. -/
inductive Err where
  | dateNotPast
  | noCommits (repo : String)
  | noRevision (repo : String)
  | juliaFailed
  | simFailed
  | moveDestExists
  | fileNotFound
deriving Repr, DecidableEq

/-- `get_latest_commit_at_date` (src/scripts/run.py:22-44) as a pure function
of the repository's `origin/main` history.  The code first raises `ValueError`
when the target date is not strictly in the past; otherwise it returns the
first commit `iter_commits "origin/main" (until := date + 1 day)` yields — the
newest commit with timestamp at most `untilBound date` — or `None` when that
iterator is empty. -/
def get_latest_commit_at_date (history : List Commit) (today date : Nat) :
    Except Err (Option Commit) :=
  if today ≤ date then .error .dateNotPast
  else .ok ((history.filter fun c => decide (c.timestamp ≤ untilBound date)).head?)

/-- The commit was made on calendar day `date`. -/
def OnDay (date : Nat) (c : Commit) : Prop :=
  (date : Int) * secondsPerDay ≤ c.timestamp ∧ c.timestamp < untilBound date

instance (date : Nat) (c : Commit) : Decidable (OnDay date c) := by
  unfold OnDay; infer_instance

/-- Modelled from the spec: the strict resolution policy — "(a) strict: only a
commit made on that exact calendar day".  This resolver variant is described by
the spec's §4.1 and §8 but is not part of src/scripts/run.py (it belongs to the
other script variants the spec mentions), so it is modelled from the spec's
words: among the commits made on the target day itself, taken newest first,
return the first one, and "not found" (`none`) when no commit was made that
day. -/
def get_commit_on_date (history : List Commit) (date : Nat) : Option Commit :=
  (history.filter fun c => decide (OnDay date c)).head?

/-- C1: for every repository history (newest first) and valid past target date,
`get_latest_commit_at_date` returns the most recent commit whose timestamp is
at or before the end of day `date` — the bound `untilBound date` includes all
commits made on the date itself — and returns `none` exactly when the history
has no commit at or before that bound. -/
theorem C1_latest_as_of (history : List Commit) (today date : Nat)
    (hpast : date < today) (hsorted : SortedHistory history) :
    (∀ c, get_latest_commit_at_date history today date = .ok (some c) →
        c ∈ history ∧ c.timestamp ≤ untilBound date ∧
        ∀ c' ∈ history, c'.timestamp ≤ untilBound date → c'.timestamp ≤ c.timestamp) ∧
    (get_latest_commit_at_date history today date = .ok none ↔
        ∀ c ∈ history, untilBound date < c.timestamp) := by
  have hnot : ¬ today ≤ date := by omega
  unfold get_latest_commit_at_date
  rw [if_neg hnot]
  constructor
  · intro c hc
    have hhead : (history.filter fun x => decide (x.timestamp ≤ untilBound date)).head?
        = some c := by
      simpa using hc
    cases hf : history.filter fun x => decide (x.timestamp ≤ untilBound date) with
    | nil => rw [hf] at hhead; simp at hhead
    | cons c0 t =>
      rw [hf] at hhead
      simp only [List.head?_cons, Option.some.injEq] at hhead
      subst hhead
      have hmem : c0 ∈ history.filter fun x => decide (x.timestamp ≤ untilBound date) := by
        rw [hf]; exact List.mem_cons_self _ _
      rw [List.mem_filter] at hmem
      refine ⟨hmem.1, by simpa using hmem.2, ?_⟩
      intro c' hc' hle
      have hmem' : c' ∈ history.filter fun x => decide (x.timestamp ≤ untilBound date) :=
        List.mem_filter.mpr ⟨hc', by simpa using hle⟩
      rw [hf] at hmem'
      rcases List.mem_cons.mp hmem' with h | h
      · subst h; exact le_refl _
      · have hp : List.Pairwise (fun a b => b.timestamp ≤ a.timestamp) (c0 :: t) := by
          rw [← hf]; exact hsorted.filter _
        exact (List.pairwise_cons.mp hp).1 c' h
  · simp only [Except.ok.injEq, List.head?_eq_none_iff, List.filter_eq_nil_iff,
      decide_eq_true_eq, not_le]

/-- A concrete two-commit history, newest first, shared by resolver witnesses. -/
def historyW : List Commit := [⟨"b2", 200⟩, ⟨"a1", 100⟩]

/-- Witness for C1: the theorem applied to `historyW`, today = day 10 and
target date = day 3, the hypotheses discharged by computation. -/
theorem C1_latest_as_of_witness :
    SortedHistory historyW ∧
    (∀ c, get_latest_commit_at_date historyW 10 3 = .ok (some c) →
        c ∈ historyW ∧ c.timestamp ≤ untilBound 3 ∧
        ∀ c' ∈ historyW, c'.timestamp ≤ untilBound 3 → c'.timestamp ≤ c.timestamp) ∧
    (get_latest_commit_at_date historyW 10 3 = .ok none ↔
        ∀ c ∈ historyW, untilBound 3 < c.timestamp) :=
  ⟨by decide, C1_latest_as_of historyW 10 3 (by decide) (by decide)⟩

/-- C6: under the strict resolution policy (modelled from the spec), the
resolver returns a commit made on day `date` itself whenever one exists — the
most recent of that day when several exist — and a commit made before but not
on `date` never qualifies: the returned commit is always on the day, and when
no commit of the history is on the day the result is "not found". -/
theorem C6_strict_on_day (history : List Commit) (date : Nat)
    (hsorted : SortedHistory history) :
    (∀ c, get_commit_on_date history date = some c →
        c ∈ history ∧ OnDay date c ∧
        ∀ c' ∈ history, OnDay date c' → c'.timestamp ≤ c.timestamp) ∧
    ((∃ c ∈ history, OnDay date c) → ∃ c, get_commit_on_date history date = some c) ∧
    ((∀ c ∈ history, ¬ OnDay date c) → get_commit_on_date history date = none) := by
  unfold get_commit_on_date
  refine ⟨?_, ?_, ?_⟩
  · intro c hc
    cases hf : history.filter fun x => decide (OnDay date x) with
    | nil => rw [hf] at hc; simp at hc
    | cons c0 t =>
      rw [hf] at hc
      simp only [List.head?_cons, Option.some.injEq] at hc
      subst hc
      have hmem : c0 ∈ history.filter fun x => decide (OnDay date x) := by
        rw [hf]; exact List.mem_cons_self _ _
      rw [List.mem_filter] at hmem
      refine ⟨hmem.1, by simpa using hmem.2, ?_⟩
      intro c' hc' hon
      have hmem' : c' ∈ history.filter fun x => decide (OnDay date x) :=
        List.mem_filter.mpr ⟨hc', by simpa using hon⟩
      rw [hf] at hmem'
      rcases List.mem_cons.mp hmem' with h | h
      · subst h; exact le_refl _
      · have hp : List.Pairwise (fun a b => b.timestamp ≤ a.timestamp) (c0 :: t) := by
          rw [← hf]; exact hsorted.filter _
        exact (List.pairwise_cons.mp hp).1 c' h
  · rintro ⟨c, hc, hon⟩
    have hmem : c ∈ history.filter fun x => decide (OnDay date x) :=
      List.mem_filter.mpr ⟨hc, by simpa using hon⟩
    cases hf : history.filter fun x => decide (OnDay date x) with
    | nil => rw [hf] at hmem; simp at hmem
    | cons c0 t => exact ⟨c0, rfl⟩
  · intro h
    have : (history.filter fun x => decide (OnDay date x)) = [] :=
      List.filter_eq_nil_iff.mpr fun c hc => by simpa using h c hc
    rw [this]; rfl

/-- A concrete history with two commits on day 3 and one old commit, newest
first, for the strict-policy witness. -/
def historyW6 : List Commit := [⟨"c3", 300000⟩, ⟨"b2", 259300⟩, ⟨"a1", 100⟩]

/-- Witness for C6: the theorem applied to `historyW6` and day 3, the
sortedness hypothesis discharged by computation. -/
theorem C6_strict_on_day_witness :
    SortedHistory historyW6 ∧
    (∀ c, get_commit_on_date historyW6 3 = some c →
        c ∈ historyW6 ∧ OnDay 3 c ∧
        ∀ c' ∈ historyW6, OnDay 3 c' → c'.timestamp ≤ c.timestamp) ∧
    ((∃ c ∈ historyW6, OnDay 3 c) → ∃ c, get_commit_on_date historyW6 3 = some c) ∧
    ((∀ c ∈ historyW6, ¬ OnDay 3 c) → get_commit_on_date historyW6 3 = none) :=
  ⟨by decide, C6_strict_on_day historyW6 3 (by decide)⟩

/-! ## The orchestrator `main` as explicit state passing

A filesystem path is its list of components (`runs/amip/2024-01-03` is
`["runs", "amip", "2024-01-03"]`, relative to the working directory).  The
filesystem is the list of nodes (files and directories) present; a path exists
(`os.path.exists`) when some node extends it, so a file's presence implies its
ancestors'. -/

/-- A filesystem path, as its list of components. -/
abbrev Path := List String

/-- `os.path.exists`: some node of the filesystem extends the path. -/
def fsExists (fs : List Path) (p : Path) : Bool :=
  fs.any fun q => p.isPrefixOf q

/-- The filesystem effect of a successful `shutil.rmtree`: every node at or
under the path is removed. -/
def fsRemoveTree (fs : List Path) (p : Path) : List Path :=
  fs.filter fun q => !(p.isPrefixOf q)

/-- `os.makedirs dest` followed by `git archive rev | tar -x -C dest`
(`copy_repo_at_rev`, src/scripts/run.py:77-82): the destination directory and
the archived tree's files appear under `dest`. -/
def fsAddTree (fs : List Path) (dest : Path) (tree : List Path) : List Path :=
  dest :: tree.map (fun f => dest ++ f) ++ fs

/-- The renaming underlying `shutil.move`: every node at or under `src` is
relocated to the corresponding path under `real_dst` (the destination
`os.rename` actually receives — see `shutil_move` for how `shutil.move`
chooses it). -/
def fsRename (fs : List Path) (src real_dst : Path) : List Path :=
  fs.map fun q => if src.isPrefixOf q then real_dst ++ q.drop src.length else q

/-- The external effects of one invocation, in program order: a remote fetch,
directory creation, `shutil.rmtree`, `git archive` extraction, a
`julia --project=env -e cmd` subprocess, `shutil.copy2`, a file write, the
simulation subprocess, `shutil.move`, and a logged warning. -/
inductive Eff where
  | fetch (repo : String)
  | makedirs (p : Path)
  | rmtree (p : Path)
  | archiveExtract (repo rev : String) (dest : Path)
  | julia (env : Path) (cmd : String)
  | copy2 (src dest : Path)
  | writeFile (p : Path)
  | runSim
  | move (src dest : Path)
  | warn (msg : String)
deriving Repr, DecidableEq

/-- The observable state of one invocation: the filesystem and the trace of
external effects performed so far. -/
structure World where
  fs : List Path
  trace : List Eff
deriving Repr, DecidableEq

/-- The ambient inputs of one `main` invocation: the current day, the parsed
target day and its normalized `YYYY-MM-DD` string, the `--env-only` flag, each
tracked repository's `origin/main` history (newest first), the file tree of the
coordinator repository's archive at its resolved revision, whether the
Julia/package-manager subprocesses succeed, whether the simulation subprocess
exits zero, and the nodes the simulation subprocess creates. -/
structure Input where
  today : Nat
  date : Nat
  dateStr : String
  envOnly : Bool
  histories : String → List Commit
  couplerTree : List Path
  juliaOk : Bool
  simOk : Bool
  simOutput : List Path

/-- A step of the orchestrator: from a `World`, either a value or the raised
error, together with the `World` reached — an exception leaves the filesystem
and trace as they were at the raise, exactly as in Python. -/
def OrcM (α : Type) := World → Except Err α × World

/-- Return a value, changing nothing. -/
def oret {α : Type} (a : α) : OrcM α := fun w => (.ok a, w)

/-- Sequencing: an error short-circuits, keeping the world it was raised in. -/
def obind {α β : Type} (m : OrcM α) (f : α → OrcM β) : OrcM β := fun w =>
  match m w with
  | (.ok a, w') => f a w'
  | (.error e, w') => (.error e, w')

/-- Raise an error (a Python exception propagating out of `main`). -/
def othrow {α : Type} (e : Err) : OrcM α := fun w => (.error e, w)

/-- Record an external effect. -/
def oemit (e : Eff) : OrcM Unit := fun w => (.ok (), { w with trace := w.trace ++ [e] })

/-- Transform the filesystem. -/
def ofs (f : List Path → List Path) : OrcM Unit := fun w => (.ok (), { w with fs := f w.fs })

/-- Read the filesystem (the branches driven by `os.path.exists`). -/
def oget : OrcM (List Path) := fun w => (.ok w.fs, w)

/-- The fixed set of tracked repositories (src/scripts/run.py:12-19). -/
def REPOS : List String :=
  ["ClimaCoupler.jl", "ClimaAtmos.jl", "ClimaCore.jl", "ClimaTimesteppers.jl",
    "Thermodynamics.jl", "RRTMGP.jl"]

/-- The per-date run directory `runs/amip/<date>` (src/scripts/run.py:117). -/
def runsDirOf (inp : Input) : Path := ["runs", "amip", inp.dateStr]

/-- The temporary coordinator copy `<run_dir>/ClimaCoupler.jl`. -/
def couplerDirOf (inp : Input) : Path := runsDirOf inp ++ ["ClimaCoupler.jl"]

/-- The Julia environment directory
`<run_dir>/ClimaCoupler.jl/experiments/ClimaEarth`. -/
def envDirOf (inp : Input) : Path := couplerDirOf inp ++ ["experiments", "ClimaEarth"]

/-- One repository's resolution inside the loop of `get_repo_revs_at_date`:
`get_latest_commit_at_date` validates the date before anything else, so a
rejected date raises before the remote fetch is triggered; on a valid date the
fetch happens and the commit query is pure. -/
def resolveOne (inp : Input) (repo : String) : OrcM (Option Commit) :=
  match get_latest_commit_at_date (inp.histories repo) inp.today inp.date with
  | .error e => othrow e
  | .ok r => obind (oemit (.fetch repo)) fun _ => oret r

/-- The loop of `get_repo_revs_at_date` (src/scripts/run.py:47-60): resolve
each repository in order, raising `ValueError` when one has no qualifying
commit, and collect the name-to-commit mapping. -/
def resolveRepos (inp : Input) : List String → OrcM (List (String × Commit))
  | [] => oret []
  | repo :: rest =>
    obind (resolveOne inp repo) fun r =>
    match r with
    | none => othrow (.noCommits repo)
    | some c =>
      obind (resolveRepos inp rest) fun revs =>
      oret ((repo, c) :: revs)

/-- `get_repo_revs_at_date` over the fixed repository list. -/
def get_repo_revs_at_date (inp : Input) : OrcM (List (String × Commit)) :=
  resolveRepos inp REPOS

/-- `run_julia_command` (src/scripts/run.py:63-66) with `check=True`, as every
call site uses it: run the subprocess and raise when it fails. -/
def run_julia_command (inp : Input) (env : Path) (cmd : String) : OrcM Unit :=
  obind (oemit (.julia env cmd)) fun _ =>
  if inp.juliaOk then oret () else othrow .juliaFailed

/-- The `Pkg.add` command string of src/scripts/run.py:138-148. -/
def juliaAddCmd (repo rev : String) : String :=
  "using Pkg; Pkg.add(Pkg.PackageSpec(;url=\"https://github.com/CliMA/" ++ repo ++
    "\", rev=\"" ++ rev ++ "\"))"

/-- The package-add loop of `main` (src/scripts/run.py:141-150): skip the
coordinator, check membership in the resolved mapping (raising `ValueError`
when absent), and add each remaining repository pinned to its revision. -/
def addPackages (inp : Input) (repo_revs : List (String × Commit)) :
    List String → OrcM Unit
  | [] => oret ()
  | repo :: rest =>
    if repo = "ClimaCoupler.jl" then addPackages inp repo_revs rest
    else
      match repo_revs.lookup repo with
      | none => othrow (.noRevision repo)
      | some c =>
        obind (run_julia_command inp (envDirOf inp) (juliaAddCmd repo c.rev)) fun _ =>
        addPackages inp repo_revs rest

/-- Lines 124-133 of `main`: delete the coordinator copy when it already
exists, then extract a fresh copy of the coordinator repository at the resolved
revision into `<run_dir>/ClimaCoupler.jl`. -/
def setupCoupler (inp : Input) (rev : String) : OrcM Unit :=
  obind oget fun fs =>
  obind (if fsExists fs (couplerDirOf inp) then
          obind (oemit (.rmtree (couplerDirOf inp))) fun _ =>
          ofs (fun fs2 => fsRemoveTree fs2 (couplerDirOf inp))
        else oret ()) fun _ =>
  obind (oemit (.archiveExtract "ClimaCoupler.jl" rev (couplerDirOf inp))) fun _ =>
  ofs fun fs2 => fsAddTree fs2 (couplerDirOf inp) inp.couplerTree

/-- Lines 134-167 of `main`: instantiate the environment, add each tracked
package at its revision, resolve, add MPI, precompile, report status, copy the
manifest back into the run directory and write the revision record. -/
def envSetup (inp : Input) (repo_revs : List (String × Commit)) : OrcM Unit :=
  obind (run_julia_command inp (envDirOf inp) "using Pkg; Pkg.instantiate();") fun _ =>
  obind (addPackages inp repo_revs REPOS) fun _ =>
  obind (run_julia_command inp (envDirOf inp) "using Pkg; Pkg.resolve();") fun _ =>
  obind (run_julia_command inp (envDirOf inp) "using Pkg; Pkg.add(\"MPI\");") fun _ =>
  obind (run_julia_command inp (envDirOf inp) "using Pkg; Pkg.precompile();") fun _ =>
  obind (run_julia_command inp (envDirOf inp) "using Pkg; Pkg.status();") fun _ =>
  obind (oemit (.copy2 (envDirOf inp ++ ["Manifest-v1.11.toml"])
    (runsDirOf inp ++ ["Manifest-v1.11.toml"]))) fun _ =>
  obind (ofs fun fs => (runsDirOf inp ++ ["Manifest-v1.11.toml"]) :: fs) fun _ =>
  obind (oemit (.writeFile (runsDirOf inp ++ ["repo-revs.json"]))) fun _ =>
  ofs fun fs => (runsDirOf inp ++ ["repo-revs.json"]) :: fs

/-- The two YAML configuration files of src/scripts/run.py:174-177, relative to
the coordinator's `config` directory. -/
def configFiles : List Path :=
  [["benchmark_configs", "amip_progedmf_1m_land_he16.yml"],
    ["atmos_configs", "climaatmos_progedmf_1m.yml"]]

/-- The coordinator's checked-out-at-HEAD working copy under `./repos`. -/
def reposCouplerDir : Path := ["repos", "ClimaCoupler.jl"]

/-- The loop of src/scripts/run.py:180-184: copy each configuration file from
the HEAD working copy's `config` directory into the run directory's copy,
unconditionally (`shutil.copy2` overwrites and reads nothing of the content). -/
def copyConfigLoop (inp : Input) : List Path → OrcM Unit
  | [] => oret ()
  | c :: rest =>
    obind (oemit (.copy2 (reposCouplerDir ++ ["config"] ++ c)
      (couplerDirOf inp ++ ["config"] ++ c))) fun _ =>
    obind (ofs fun fs => (couplerDirOf inp ++ ["config"] ++ c) :: fs) fun _ =>
    copyConfigLoop inp rest

/-- The TOML parameter file path, relative to the coordinator repository. -/
def tomlFile : Path := ["toml", "amip_progedmf_1m.toml"]

/-- Lines 172-191 of `main`: copy the two YAML configs and the TOML parameter
file from `./repos/ClimaCoupler.jl` (the HEAD working copy) into the
corresponding locations under the run directory's coordinator copy. -/
def installConfigs (inp : Input) : OrcM Unit :=
  obind (copyConfigLoop inp configFiles) fun _ =>
  obind (oemit (.copy2 (reposCouplerDir ++ tomlFile) (couplerDirOf inp ++ tomlFile))) fun _ =>
  ofs fun fs => (couplerDirOf inp ++ tomlFile) :: fs

/-- Lines 193-204 of `main`: launch the simulation subprocess, record whatever
nodes it creates, and raise when its exit status is non-zero
(`subprocess.run(cmd, check=True)`). -/
def runBenchmark (inp : Input) : OrcM Unit :=
  obind (oemit .runSim) fun _ =>
  obind (ofs fun fs => inp.simOutput ++ fs) fun _ =>
  if inp.simOk then oret () else othrow .simFailed

/-- The job identifier of src/scripts/run.py:202. -/
def jobId : String := "gpu_amip_progedmf_1M_land_he16"

/-- The two fixed candidate artifact locations of src/scripts/run.py:207-215:
`<outdir>/gpu_amip_progedmf_1M_land_he16/artifacts` for each output dir. -/
def artifactDirs : List Path :=
  [["output"], ["experiments", "ClimaEarth", "output"]].map fun o =>
    o ++ [jobId, "artifacts"]

/-- The scan of src/scripts/run.py:216-223: walk the candidate list keeping the
first existing candidate; a second existing candidate logs a warning and
returns from `main` (`none` here), otherwise the kept candidate (or `none` when
no candidate exists) is reported (`some src`). -/
def artifactScan (dirs : List Path) (src : Option Path) : OrcM (Option (Option Path)) :=
  match dirs with
  | [] => oret (some src)
  | d :: rest =>
    obind oget fun fs =>
    if fsExists fs d then
      match src with
      | some _ =>
        obind (oemit (.warn "Multiple artifacts directories found")) fun _ => oret none
      | none => artifactScan rest (some d)
    else artifactScan rest src

/-- `shutil.move src dest`: when `dest` does not exist the move is a plain
rename to `dest`; when `dest` exists — in this program the move destination
can only be a directory, a previously produced `<run_dir>/artifacts`, so the
model's existence check stands for Python's `os.path.isdir` — the source is
moved inside it, to `dest/basename(src)`, and if that nested target already
exists `shutil.Error` is raised and nothing moves.  `basename(src)` is the
source path's last component, `src.drop (src.length - 1)`. -/
def shutil_move (src dest : Path) : OrcM Unit :=
  obind oget fun fs =>
  if fsExists fs dest then
    if fsExists fs (dest ++ src.drop (src.length - 1)) then othrow .moveDestExists
    else
      obind (oemit (.move src (dest ++ src.drop (src.length - 1)))) fun _ =>
      ofs fun fs2 => fsRename fs2 src (dest ++ src.drop (src.length - 1))
  else
    obind (oemit (.move src dest)) fun _ =>
    ofs fun fs2 => fsRename fs2 src dest

/-- An unguarded `shutil.rmtree p`: when the path does not exist,
`FileNotFoundError` is raised; otherwise every node at or under it is
removed. -/
def shutil_rmtree (p : Path) : OrcM Unit :=
  obind oget fun fs =>
  if fsExists fs p then
    obind (oemit (.rmtree p)) fun _ =>
    ofs fun fs2 => fsRemoveTree fs2 p
  else othrow .fileNotFound

/-- Lines 206-232 of `main`: find the unique candidate artifacts directory;
with zero or several candidates a warning is the only effect, and with exactly
one the directory is `shutil.move`d to `<run_dir>/artifacts` and the temporary
coordinator copy deleted by an unguarded `shutil.rmtree` (run.py:232). -/
def collectArtifacts (inp : Input) : OrcM Unit :=
  obind (artifactScan artifactDirs none) fun r =>
  match r with
  | none => oret ()
  | some none =>
    obind (oemit (.warn "No artifacts directory found")) fun _ => oret ()
  | some (some src) =>
    obind (shutil_move src (runsDirOf inp ++ ["artifacts"])) fun _ =>
    shutil_rmtree (couplerDirOf inp)

/-- `main` (src/scripts/run.py:90-232): resolve every repository, create the
run directory, place the coordinator copy at its resolved revision, set up the
Julia environment, record the manifest and revisions, and — unless `--env-only`
was given — install the configuration files, run the benchmark and collect its
artifacts.  The lookup `repo_revs["ClimaCoupler.jl"]` of line 122 is modelled
by the `match`, raising when the key is missing. -/
def mainRun (inp : Input) : OrcM Unit :=
  obind (get_repo_revs_at_date inp) fun repo_revs =>
  obind (ofs fun fs => runsDirOf inp :: fs) fun _ =>
  obind (oemit (.makedirs (runsDirOf inp))) fun _ =>
  match repo_revs.lookup "ClimaCoupler.jl" with
  | none => othrow (.noRevision "ClimaCoupler.jl")
  | some cc =>
    obind (setupCoupler inp cc.rev) fun _ =>
    obind (envSetup inp repo_revs) fun _ =>
    if inp.envOnly then oret ()
    else
      obind (installConfigs inp) fun _ =>
      obind (runBenchmark inp) fun _ =>
      collectArtifacts inp

/-! ### Combinator and filesystem lemmas -/

theorem obind_eq_ok {α β : Type} {m : OrcM α} {f : α → OrcM β} {w w' : World} {a : α}
    (h : m w = (.ok a, w')) : obind m f w = f a w' := by
  unfold obind; rw [h]

theorem obind_eq_error {α β : Type} {m : OrcM α} {f : α → OrcM β} {w w' : World} {e : Err}
    (h : m w = (.error e, w')) : obind m f w = (.error e, w') := by
  unfold obind; rw [h]

theorem obind_fst_error {α β : Type} {m : OrcM α} {f : α → OrcM β} {w : World} {e : Err}
    (h : (obind m f w).1 = .error e) :
    (m w).1 = .error e ∨ ∃ a w', m w = (.ok a, w') ∧ (f a w').1 = .error e := by
  rcases hm : m w with ⟨r, w1⟩
  cases r with
  | error e' =>
    left
    rw [obind_eq_error hm] at h
    simp only [Except.error.injEq] at h
    simp [h]
  | ok a =>
    right
    refine ⟨a, w1, rfl, ?_⟩
    rw [obind_eq_ok hm] at h
    exact h

/-- A strictly longer path is a prefix of nothing shorter. -/
theorem isPrefixOf_eq_false_of_longer {p q : Path} (h : q.length < p.length) :
    p.isPrefixOf q = false := by
  rw [← Bool.not_eq_true, List.isPrefixOf_iff_prefix]
  intro hp
  exact absurd hp.length_le (by omega)

/-- Paths that agree on a common stem and then split on distinct components are
prefix-incomparable. -/
theorem isPrefixOf_append_cons_ne {p : Path} {a b : String} {l l2 : List String}
    (h : a ≠ b) : (p ++ a :: l).isPrefixOf (p ++ b :: l2) = false := by
  rw [← Bool.not_eq_true, List.isPrefixOf_iff_prefix]
  intro hp
  rw [List.prefix_append_right_inj] at hp
  exact h (List.cons_prefix_cons.mp hp).1

theorem fsExists_cons {q : Path} {fs : List Path} {p : Path} :
    fsExists (q :: fs) p = (p.isPrefixOf q || fsExists fs p) := rfl

theorem fsExists_append {a b : List Path} {p : Path} :
    fsExists (a ++ b) p = (fsExists a p || fsExists b p) := by
  simp [fsExists, List.any_append]

theorem fsExists_eq_false_iff {fs : List Path} {p : Path} :
    fsExists fs p = false ↔ ∀ q ∈ fs, p.isPrefixOf q = false := by
  rw [fsExists, List.any_eq_false]
  constructor
  · intro h q hq
    exact Bool.eq_false_iff.mpr (h q hq)
  · intro h q hq
    exact Bool.eq_false_iff.mp (h q hq)

/-- After `rmtree p`, nothing at or under `p` exists. -/
theorem fsExists_fsRemoveTree_self (fs : List Path) (p : Path) :
    fsExists (fsRemoveTree fs p) p = false := by
  rw [fsExists_eq_false_iff]
  intro q hq
  have := (List.mem_filter.mp hq).2
  simpa using this

/-- `rmtree` removes exactly the nodes at or under its argument. -/
theorem mem_fsRemoveTree {fs : List Path} {p q : Path} :
    q ∈ fsRemoveTree fs p ↔ q ∈ fs ∧ p.isPrefixOf q = false := by
  simp [fsRemoveTree]

/-- A node outside the moved subtree is untouched by `shutil.move`. -/
theorem mem_fsRename_untouched {fs : List Path} {src dest q : Path}
    (hq : q ∈ fs) (h : src.isPrefixOf q = false) : q ∈ fsRename fs src dest := by
  unfold fsRename
  have : (if src.isPrefixOf q then dest ++ q.drop src.length else q) = q := by
    simp [h]
  exact this ▸ List.mem_map_of_mem _ hq

/-- Every node of the moved filesystem comes from a node of the original. -/
theorem mem_fsRename_elim {fs : List Path} {src dest q : Path} (hq : q ∈ fsRename fs src dest) :
    ∃ q0 ∈ fs, q = (if src.isPrefixOf q0 then dest ++ q0.drop src.length else q0) := by
  rcases List.mem_map.mp hq with ⟨q0, hq0, hmap⟩
  exact ⟨q0, hq0, hmap.symm⟩

/-- The pure resolver raises only the date-validity error. -/
theorem get_latest_commit_at_date_error {history : List Commit} {today date : Nat} {e : Err}
    (h : get_latest_commit_at_date history today date = .error e) : e = .dateNotPast := by
  unfold get_latest_commit_at_date at h
  split at h
  · injection h with h'
    exact h'.symm
  · simp at h

/-- The resolution loop leaves the filesystem untouched, extends the trace by
remote fetches only, raises only the date-validity or no-commits errors, and on
success returns a mapping with an entry for every repository of its list. -/
theorem resolveRepos_shape (inp : Input) (l : List String) (w : World) :
    ((resolveRepos inp l w).2).fs = w.fs ∧
    (∃ tr, ((resolveRepos inp l w).2).trace = w.trace ++ tr ∧
      ∀ e ∈ tr, ∃ r, e = Eff.fetch r) ∧
    (∀ e, (resolveRepos inp l w).1 = .error e →
      e = .dateNotPast ∨ ∃ r, e = .noCommits r) ∧
    (∀ revs, (resolveRepos inp l w).1 = .ok revs →
      ∀ repo ∈ l, ∃ c, revs.lookup repo = some c) := by
  induction l generalizing w with
  | nil =>
    refine ⟨rfl, ⟨[], by simp [resolveRepos, oret], by simp⟩, ?_, ?_⟩
    · intro e he
      simp [resolveRepos, oret] at he
    · intro revs _ repo hrepo
      exact absurd hrepo (List.not_mem_nil _)
  | cons repo rest ih =>
    cases hg : get_latest_commit_at_date (inp.histories repo) inp.today inp.date with
    | error e0 =>
      have hro : resolveOne inp repo w = (.error e0, w) := by
        unfold resolveOne; rw [hg]; rfl
      have hmain : resolveRepos inp (repo :: rest) w = (.error e0, w) := by
        simp only [resolveRepos]
        rw [obind_eq_error hro]
      rw [hmain]
      refine ⟨rfl, ⟨[], by simp, by simp⟩, ?_, ?_⟩
      · intro e he
        injection he with h'
        left
        rw [← h', get_latest_commit_at_date_error hg]
      · intro revs he
        simp at he
    | ok r =>
      have hro : resolveOne inp repo w =
          (.ok r, { w with trace := w.trace ++ [Eff.fetch repo] }) := by
        unfold resolveOne; rw [hg]; rfl
      cases r with
      | none =>
        have hmain : resolveRepos inp (repo :: rest) w =
            (.error (.noCommits repo), { w with trace := w.trace ++ [Eff.fetch repo] }) := by
          simp only [resolveRepos]
          rw [obind_eq_ok hro]
          rfl
        rw [hmain]
        refine ⟨rfl, ⟨[Eff.fetch repo], by simp, by simp⟩, ?_, ?_⟩
        · intro e he
          injection he with h'
          right
          exact ⟨repo, h'.symm⟩
        · intro revs he
          simp at he
      | some c =>
        have hmain : resolveRepos inp (repo :: rest) w =
            obind (resolveRepos inp rest) (fun revs => oret ((repo, c) :: revs))
              { w with trace := w.trace ++ [Eff.fetch repo] } := by
          simp only [resolveRepos]
          rw [obind_eq_ok hro]
        obtain ⟨ihfs, ⟨tr, ihtr, ihfetch⟩, iherr, ihok⟩ :=
          ih { w with trace := w.trace ++ [Eff.fetch repo] }
        rcases hr : resolveRepos inp rest { w with trace := w.trace ++ [Eff.fetch repo] }
          with ⟨res2, w2⟩
        rw [hr] at ihfs ihtr iherr ihok
        cases res2 with
        | error e2 =>
          have hfin : resolveRepos inp (repo :: rest) w = (.error e2, w2) := by
            rw [hmain, obind_eq_error hr]
          rw [hfin]
          refine ⟨ihfs, ⟨Eff.fetch repo :: tr, ?_, ?_⟩, ?_, ?_⟩
          · rw [ihtr]; simp
          · intro e he
            rcases List.mem_cons.mp he with h | h
            · exact ⟨repo, h⟩
            · exact ihfetch e h
          · intro e he
            exact iherr e he
          · intro revs he
            simp at he
        | ok revs2 =>
          have hfin : resolveRepos inp (repo :: rest) w = (.ok ((repo, c) :: revs2), w2) := by
            rw [hmain, obind_eq_ok hr]
            rfl
          rw [hfin]
          refine ⟨ihfs, ⟨Eff.fetch repo :: tr, ?_, ?_⟩, ?_, ?_⟩
          · rw [ihtr]; simp
          · intro e he
            rcases List.mem_cons.mp he with h | h
            · exact ⟨repo, h⟩
            · exact ihfetch e h
          · intro e he
            simp at he
          · intro revs he repo0 hrepo0
            have hrevs : (repo, c) :: revs2 = revs := by
              injection he
            subst hrevs
            by_cases hcase : repo0 = repo
            · subst hcase
              exact ⟨c, by simp [List.lookup]⟩
            · rcases List.mem_cons.mp hrepo0 with h | h
              · exact absurd h hcase
              · obtain ⟨c0, hc0⟩ := ihok revs2 rfl repo0 h
                refine ⟨c0, ?_⟩
                have hbeq : (repo0 == repo) = false := beq_eq_false_iff_ne.mpr hcase
                simp [List.lookup, hbeq, hc0]

/-! ### Per-phase characterizations -/

theorem run_julia_command_eq (inp : Input) (env : Path) (cmd : String) (w : World) :
    run_julia_command inp env cmd w =
      ((if inp.juliaOk then .ok () else .error .juliaFailed),
        { w with trace := w.trace ++ [Eff.julia env cmd] }) := by
  by_cases hj : inp.juliaOk <;>
    simp [run_julia_command, obind, oemit, oret, othrow, hj]

theorem runBenchmark_eq (inp : Input) (w : World) :
    runBenchmark inp w =
      ((if inp.simOk then .ok () else .error .simFailed),
        ⟨inp.simOutput ++ w.fs, w.trace ++ [Eff.runSim]⟩) := by
  by_cases hs : inp.simOk <;>
    simp [runBenchmark, obind, oemit, ofs, oret, othrow, hs]

theorem setupCoupler_eq (inp : Input) (rev : String) (w : World) :
    setupCoupler inp rev w =
      (.ok (), ⟨fsAddTree
          (if fsExists w.fs (couplerDirOf inp) then fsRemoveTree w.fs (couplerDirOf inp)
            else w.fs)
          (couplerDirOf inp) inp.couplerTree,
        w.trace ++
          (if fsExists w.fs (couplerDirOf inp) then
            [Eff.rmtree (couplerDirOf inp),
              Eff.archiveExtract "ClimaCoupler.jl" rev (couplerDirOf inp)]
          else [Eff.archiveExtract "ClimaCoupler.jl" rev (couplerDirOf inp)])⟩) := by
  by_cases h : fsExists w.fs (couplerDirOf inp) <;>
    simp [setupCoupler, obind, oget, oemit, ofs, oret, h]

/-- The run-directory destinations of the three configuration copies, in the
order the filesystem receives them (last copy first). -/
def configDests (inp : Input) : List Path :=
  [couplerDirOf inp ++ tomlFile,
    couplerDirOf inp ++ ["config"] ++ ["atmos_configs", "climaatmos_progedmf_1m.yml"],
    couplerDirOf inp ++ ["config"] ++ ["benchmark_configs", "amip_progedmf_1m_land_he16.yml"]]

/-- The three copy effects of lines 174-191, in program order. -/
def configCopyEffects (inp : Input) : List Eff :=
  [Eff.copy2
      (reposCouplerDir ++ ["config"] ++ ["benchmark_configs", "amip_progedmf_1m_land_he16.yml"])
      (couplerDirOf inp ++ ["config"] ++ ["benchmark_configs", "amip_progedmf_1m_land_he16.yml"]),
    Eff.copy2
      (reposCouplerDir ++ ["config"] ++ ["atmos_configs", "climaatmos_progedmf_1m.yml"])
      (couplerDirOf inp ++ ["config"] ++ ["atmos_configs", "climaatmos_progedmf_1m.yml"]),
    Eff.copy2 (reposCouplerDir ++ tomlFile) (couplerDirOf inp ++ tomlFile)]

theorem installConfigs_eq (inp : Input) (w : World) :
    installConfigs inp w =
      (.ok (), ⟨configDests inp ++ w.fs, w.trace ++ configCopyEffects inp⟩) := by
  simp [installConfigs, copyConfigLoop, configFiles, configDests, configCopyEffects,
    tomlFile, obind, oemit, ofs, oret]

/-- The first and second candidate artifact locations. -/
def artifactDir1 : Path := ["output"] ++ [jobId, "artifacts"]

def artifactDir2 : Path := ["experiments", "ClimaEarth", "output"] ++ [jobId, "artifacts"]

theorem artifactDirs_eq : artifactDirs = [artifactDir1, artifactDir2] := rfl

/-- `<run_dir>/artifacts`, the destination of the artifact move. -/
def artifactsDestOf (inp : Input) : Path := runsDirOf inp ++ ["artifacts"]

theorem artifactScan_pair (d1 d2 : Path) (w : World) :
    artifactScan [d1, d2] none w =
      (if fsExists w.fs d1 then
        (if fsExists w.fs d2 then
          (.ok none, { w with trace := w.trace ++ [Eff.warn "Multiple artifacts directories found"] })
        else (.ok (some (some d1)), w))
      else
        (if fsExists w.fs d2 then (.ok (some (some d2)), w) else (.ok (some none), w))) := by
  by_cases h1 : fsExists w.fs d1 <;> by_cases h2 : fsExists w.fs d2 <;>
    simp [artifactScan, obind, oget, oemit, oret, h1, h2]

theorem collectArtifacts_zero (inp : Input) (w : World)
    (h1 : fsExists w.fs artifactDir1 = false) (h2 : fsExists w.fs artifactDir2 = false) :
    collectArtifacts inp w =
      (.ok (), ⟨w.fs, w.trace ++ [Eff.warn "No artifacts directory found"]⟩) := by
  have hscan : artifactScan artifactDirs none w = (.ok (some none), w) := by
    rw [artifactDirs_eq, artifactScan_pair]
    simp [h1, h2]
  unfold collectArtifacts
  rw [obind_eq_ok hscan]
  simp [obind, oemit, oret]

theorem collectArtifacts_both (inp : Input) (w : World)
    (h1 : fsExists w.fs artifactDir1 = true) (h2 : fsExists w.fs artifactDir2 = true) :
    collectArtifacts inp w =
      (.ok (), ⟨w.fs, w.trace ++ [Eff.warn "Multiple artifacts directories found"]⟩) := by
  have hscan : artifactScan artifactDirs none w =
      (.ok none, { w with trace := w.trace ++ [Eff.warn "Multiple artifacts directories found"] }) := by
    rw [artifactDirs_eq, artifactScan_pair]
    simp [h1, h2]
  unfold collectArtifacts
  rw [obind_eq_ok hscan]
  simp [oret]

theorem fsExists_eq_true_iff {fs : List Path} {p : Path} :
    fsExists fs p = true ↔ ∃ q ∈ fs, p.isPrefixOf q = true := by
  simp [fsExists, List.any_eq_true]

/-- A node witnessing the coordinator copy's existence survives the artifact
move: neither candidate source reaches under the run directory. -/
theorem rename_preserves_coupler (inp : Input) (fs : List Path) (src d : Path)
    (hsrc : src = artifactDir1 ∨ src = artifactDir2)
    (h : fsExists fs (couplerDirOf inp) = true) :
    fsExists (fsRename fs src d) (couplerDirOf inp) = true := by
  obtain ⟨q, hq, hpre⟩ := fsExists_eq_true_iff.mp h
  refine fsExists_eq_true_iff.mpr ⟨q, ?_, hpre⟩
  obtain ⟨rest, hrest⟩ := List.isPrefixOf_iff_prefix.mp hpre
  have hnot : src.isPrefixOf q = false := by
    rw [← hrest]
    rcases hsrc with rfl | rfl
    · exact isPrefixOf_append_cons_ne (p := []) (by decide)
    · exact isPrefixOf_append_cons_ne (p := []) (by decide)
  exact mem_fsRename_untouched hq hnot

theorem collectArtifacts_first (inp : Input) (w : World)
    (h1 : fsExists w.fs artifactDir1 = true) (h2 : fsExists w.fs artifactDir2 = false)
    (hfresh : fsExists w.fs (artifactsDestOf inp) = false)
    (hcoup : fsExists w.fs (couplerDirOf inp) = true) :
    collectArtifacts inp w =
      (.ok (), ⟨fsRemoveTree (fsRename w.fs artifactDir1 (artifactsDestOf inp)) (couplerDirOf inp),
        w.trace ++ [Eff.move artifactDir1 (artifactsDestOf inp),
          Eff.rmtree (couplerDirOf inp)]⟩) := by
  have hscan : artifactScan artifactDirs none w = (.ok (some (some artifactDir1)), w) := by
    rw [artifactDirs_eq, artifactScan_pair]
    simp [h1, h2]
  have hfresh' : fsExists w.fs (runsDirOf inp ++ ["artifacts"]) = false := hfresh
  have hmv : shutil_move artifactDir1 (runsDirOf inp ++ ["artifacts"]) w =
      (.ok (), ⟨fsRename w.fs artifactDir1 (runsDirOf inp ++ ["artifacts"]),
        w.trace ++ [Eff.move artifactDir1 (runsDirOf inp ++ ["artifacts"])]⟩) := by
    simp [shutil_move, obind, oget, oemit, ofs, hfresh']
  have hcoup2 : fsExists (fsRename w.fs artifactDir1 (runsDirOf inp ++ ["artifacts"]))
      (couplerDirOf inp) = true :=
    rename_preserves_coupler inp w.fs artifactDir1 _ (Or.inl rfl) hcoup
  have hrm : shutil_rmtree (couplerDirOf inp)
      ⟨fsRename w.fs artifactDir1 (runsDirOf inp ++ ["artifacts"]),
        w.trace ++ [Eff.move artifactDir1 (runsDirOf inp ++ ["artifacts"])]⟩ =
      (.ok (), ⟨fsRemoveTree (fsRename w.fs artifactDir1 (runsDirOf inp ++ ["artifacts"]))
          (couplerDirOf inp),
        w.trace ++ [Eff.move artifactDir1 (runsDirOf inp ++ ["artifacts"]),
          Eff.rmtree (couplerDirOf inp)]⟩) := by
    simp [shutil_rmtree, obind, oget, oemit, ofs, hcoup2]
  unfold collectArtifacts
  rw [obind_eq_ok hscan]
  show obind (shutil_move artifactDir1 (runsDirOf inp ++ ["artifacts"])) _ w = _
  rw [obind_eq_ok hmv]
  exact hrm

theorem collectArtifacts_second (inp : Input) (w : World)
    (h1 : fsExists w.fs artifactDir1 = false) (h2 : fsExists w.fs artifactDir2 = true)
    (hfresh : fsExists w.fs (artifactsDestOf inp) = false)
    (hcoup : fsExists w.fs (couplerDirOf inp) = true) :
    collectArtifacts inp w =
      (.ok (), ⟨fsRemoveTree (fsRename w.fs artifactDir2 (artifactsDestOf inp)) (couplerDirOf inp),
        w.trace ++ [Eff.move artifactDir2 (artifactsDestOf inp),
          Eff.rmtree (couplerDirOf inp)]⟩) := by
  have hscan : artifactScan artifactDirs none w = (.ok (some (some artifactDir2)), w) := by
    rw [artifactDirs_eq, artifactScan_pair]
    simp [h1, h2]
  have hfresh' : fsExists w.fs (runsDirOf inp ++ ["artifacts"]) = false := hfresh
  have hmv : shutil_move artifactDir2 (runsDirOf inp ++ ["artifacts"]) w =
      (.ok (), ⟨fsRename w.fs artifactDir2 (runsDirOf inp ++ ["artifacts"]),
        w.trace ++ [Eff.move artifactDir2 (runsDirOf inp ++ ["artifacts"])]⟩) := by
    simp [shutil_move, obind, oget, oemit, ofs, hfresh']
  have hcoup2 : fsExists (fsRename w.fs artifactDir2 (runsDirOf inp ++ ["artifacts"]))
      (couplerDirOf inp) = true :=
    rename_preserves_coupler inp w.fs artifactDir2 _ (Or.inr rfl) hcoup
  have hrm : shutil_rmtree (couplerDirOf inp)
      ⟨fsRename w.fs artifactDir2 (runsDirOf inp ++ ["artifacts"]),
        w.trace ++ [Eff.move artifactDir2 (runsDirOf inp ++ ["artifacts"])]⟩ =
      (.ok (), ⟨fsRemoveTree (fsRename w.fs artifactDir2 (runsDirOf inp ++ ["artifacts"]))
          (couplerDirOf inp),
        w.trace ++ [Eff.move artifactDir2 (runsDirOf inp ++ ["artifacts"]),
          Eff.rmtree (couplerDirOf inp)]⟩) := by
    simp [shutil_rmtree, obind, oget, oemit, ofs, hcoup2]
  unfold collectArtifacts
  rw [obind_eq_ok hscan]
  show obind (shutil_move artifactDir2 (runsDirOf inp ++ ["artifacts"])) _ w = _
  rw [obind_eq_ok hmv]
  exact hrm

/-- The package-add loop leaves the filesystem untouched, extends the trace by
`julia` invocations only, raises `juliaFailed` or — only for a repository
missing from the mapping — the no-revision error, and succeeds whenever every
repository of its list is in the mapping and the subprocesses succeed. -/
theorem addPackages_shape (inp : Input) (revs : List (String × Commit)) (l : List String)
    (w : World) :
    ((addPackages inp revs l w).2).fs = w.fs ∧
    (∃ tr, ((addPackages inp revs l w).2).trace = w.trace ++ tr ∧
      ∀ e ∈ tr, ∃ env cmd, e = Eff.julia env cmd) ∧
    (∀ e, (addPackages inp revs l w).1 = .error e →
      e = .juliaFailed ∨ ∃ r, e = .noRevision r ∧ revs.lookup r = none) ∧
    ((∀ repo ∈ l, ∃ c, revs.lookup repo = some c) → inp.juliaOk = true →
      (addPackages inp revs l w).1 = .ok ()) := by
  induction l generalizing w with
  | nil =>
    refine ⟨rfl, ⟨[], by simp [addPackages, oret], by simp⟩, ?_, fun _ _ => rfl⟩
    intro e he
    simp [addPackages, oret] at he
  | cons repo rest ih =>
    by_cases hcoup : repo = "ClimaCoupler.jl"
    · have hmain : addPackages inp revs (repo :: rest) w = addPackages inp revs rest w := by
        simp [addPackages, hcoup]
      rw [hmain]
      obtain ⟨ihfs, ihtr, iherr, ihok⟩ := ih w
      exact ⟨ihfs, ihtr, iherr, fun hl hj => ihok (fun r hr => hl r (List.mem_cons_of_mem _ hr)) hj⟩
    · cases hlk : revs.lookup repo with
      | none =>
        have hmain : addPackages inp revs (repo :: rest) w =
            (.error (.noRevision repo), w) := by
          simp [addPackages, hcoup, hlk, othrow]
        rw [hmain]
        refine ⟨rfl, ⟨[], by simp, by simp⟩, ?_, ?_⟩
        · intro e he
          injection he with h'
          exact Or.inr ⟨repo, h'.symm, hlk⟩
        · intro hl _
          obtain ⟨c, hc⟩ := hl repo (List.mem_cons_self _ _)
          rw [hlk] at hc
          exact absurd hc (by simp)
      | some c =>
        have hrj := run_julia_command_eq inp (envDirOf inp) (juliaAddCmd repo c.rev) w
        by_cases hj : inp.juliaOk
        · rw [if_pos hj] at hrj
          have hmain : addPackages inp revs (repo :: rest) w =
              addPackages inp revs rest
                { w with trace := w.trace ++ [Eff.julia (envDirOf inp) (juliaAddCmd repo c.rev)] } := by
            simp only [addPackages, hlk]
            rw [if_neg hcoup, obind_eq_ok hrj]
          rw [hmain]
          obtain ⟨ihfs, ⟨tr, ihtr, ihjulia⟩, iherr, ihok⟩ :=
            ih { w with trace := w.trace ++ [Eff.julia (envDirOf inp) (juliaAddCmd repo c.rev)] }
          refine ⟨ihfs, ⟨Eff.julia (envDirOf inp) (juliaAddCmd repo c.rev) :: tr, ?_, ?_⟩,
            iherr, fun hl hj' => ihok (fun r hr => hl r (List.mem_cons_of_mem _ hr)) hj'⟩
          · rw [ihtr]; simp
          · intro e he
            rcases List.mem_cons.mp he with h | h
            · exact ⟨envDirOf inp, juliaAddCmd repo c.rev, h⟩
            · exact ihjulia e h
        · rw [if_neg hj] at hrj
          have hmain : addPackages inp revs (repo :: rest) w =
              (.error .juliaFailed,
                { w with trace := w.trace ++ [Eff.julia (envDirOf inp) (juliaAddCmd repo c.rev)] }) := by
            simp only [addPackages, hlk]
            rw [if_neg hcoup, obind_eq_error hrj]
          rw [hmain]
          refine ⟨rfl, ⟨[Eff.julia (envDirOf inp) (juliaAddCmd repo c.rev)], by simp, by simp⟩, ?_, ?_⟩
          · intro e he
            injection he with h'
            exact Or.inl h'.symm
          · intro _ hj'
            exact absurd hj' (by simpa using hj)

/-- The environment-setup phase with all subprocesses succeeding and a complete
mapping: it succeeds, writes exactly the manifest copy and the revision record
into the run directory, and its trace extension holds only `julia` invocations,
one copy and one file write. -/
theorem envSetup_ok (inp : Input) (revs : List (String × Commit)) (w : World)
    (hl : ∀ repo ∈ REPOS, ∃ c, revs.lookup repo = some c) (hj : inp.juliaOk = true) :
    (envSetup inp revs w).1 = .ok () ∧
    ((envSetup inp revs w).2).fs =
      (runsDirOf inp ++ ["repo-revs.json"]) :: (runsDirOf inp ++ ["Manifest-v1.11.toml"]) :: w.fs ∧
    ∃ tr, ((envSetup inp revs w).2).trace = w.trace ++ tr ∧
      ∀ e ∈ tr, (∃ env cmd, e = Eff.julia env cmd) ∨
        (∃ s d, e = Eff.copy2 s d) ∨ ∃ p, e = Eff.writeFile p := by
  have hrj : ∀ cmd w', run_julia_command inp (envDirOf inp) cmd w' =
      (.ok (), { w' with trace := w'.trace ++ [Eff.julia (envDirOf inp) cmd] }) := by
    intro cmd w'
    rw [run_julia_command_eq, if_pos hj]
  unfold envSetup
  rw [obind_eq_ok (hrj _ _)]
  rcases hap : addPackages inp revs REPOS
      { w with trace := w.trace ++ [Eff.julia (envDirOf inp) "using Pkg; Pkg.instantiate();"] }
    with ⟨resA, wA⟩
  obtain ⟨apfs, ⟨trA, aptr, apjulia⟩, _, apok⟩ := addPackages_shape inp revs REPOS
    { w with trace := w.trace ++ [Eff.julia (envDirOf inp) "using Pkg; Pkg.instantiate();"] }
  rw [hap] at apfs aptr apok
  simp only at apfs aptr
  have hresA : resA = .ok () := apok hl hj
  subst hresA
  rw [obind_eq_ok hap]
  rw [obind_eq_ok (hrj _ _), obind_eq_ok (hrj _ _), obind_eq_ok (hrj _ _), obind_eq_ok (hrj _ _)]
  refine ⟨by simp [obind, oemit, ofs, oret], by simp [obind, oemit, ofs, oret, apfs], ?_⟩
  refine ⟨Eff.julia (envDirOf inp) "using Pkg; Pkg.instantiate();" :: trA ++
    [Eff.julia (envDirOf inp) "using Pkg; Pkg.resolve();",
      Eff.julia (envDirOf inp) "using Pkg; Pkg.add(\"MPI\");",
      Eff.julia (envDirOf inp) "using Pkg; Pkg.precompile();",
      Eff.julia (envDirOf inp) "using Pkg; Pkg.status();",
      Eff.copy2 (envDirOf inp ++ ["Manifest-v1.11.toml"]) (runsDirOf inp ++ ["Manifest-v1.11.toml"]),
      Eff.writeFile (runsDirOf inp ++ ["repo-revs.json"])], ?_, ?_⟩
  · simp [obind, oemit, ofs, oret, aptr]
  · intro e he
    simp only [List.cons_append, List.mem_cons, List.mem_append] at he
    rcases he with h | h | h
    · exact Or.inl ⟨_, _, h⟩
    · obtain ⟨env, cmd, hec⟩ := apjulia e h
      exact Or.inl ⟨env, cmd, hec⟩
    · simp only [List.mem_cons, List.not_mem_nil, or_false] at h
      rcases h with h | h | h | h | h | h
      all_goals first
        | exact Or.inl ⟨_, _, h⟩
        | exact Or.inr (Or.inl ⟨_, _, h⟩)
        | exact Or.inr (Or.inr ⟨_, h⟩)

theorem envSetup_error (inp : Input) (revs : List (String × Commit)) (w : World) (e : Err)
    (hl : ∀ repo ∈ REPOS, ∃ c, revs.lookup repo = some c)
    (h : (envSetup inp revs w).1 = .error e) : e = .juliaFailed := by
  by_cases hj : inp.juliaOk
  · exact absurd h (by rw [(envSetup_ok inp revs w hl hj).1]; simp)
  · have hrj := run_julia_command_eq inp (envDirOf inp) "using Pkg; Pkg.instantiate();" w
    rw [if_neg hj] at hrj
    unfold envSetup at h
    rw [obind_eq_error hrj] at h
    injection h with h'
    exact h'.symm

theorem shutil_move_error {src dest : Path} {w : World} {e : Err}
    (h : (shutil_move src dest w).1 = .error e) : e = .moveDestExists := by
  by_cases hd : fsExists w.fs dest = true <;>
    by_cases hr : fsExists w.fs (dest ++ src.drop (src.length - 1)) = true <;>
      simp [shutil_move, obind, oget, oemit, ofs, othrow, hd, hr] at h
  exact h.symm

theorem shutil_rmtree_error {p : Path} {w : World} {e : Err}
    (h : (shutil_rmtree p w).1 = .error e) : e = .fileNotFound := by
  by_cases hp : fsExists w.fs p = true <;>
    simp [shutil_rmtree, obind, oget, oemit, ofs, othrow, hp] at h
  exact h.symm

/-- The artifact collector raises only the move or rmtree filesystem errors —
when the move's nested destination already exists, or the coordinator copy to
delete is missing. -/
theorem collectArtifacts_error (inp : Input) (w : World) (e : Err)
    (h : (collectArtifacts inp w).1 = .error e) :
    e = .moveDestExists ∨ e = .fileNotFound := by
  unfold collectArtifacts at h
  rcases obind_fst_error h with hs | ⟨r, w1, hs, h2⟩
  · rw [artifactDirs_eq, artifactScan_pair] at hs
    by_cases h1 : fsExists w.fs artifactDir1 = true <;>
      by_cases h2 : fsExists w.fs artifactDir2 = true <;>
        simp [h1, h2] at hs
  · match r with
    | none => simp [oret] at h2
    | some none => simp [obind, oemit, oret] at h2
    | some (some src) =>
      rcases obind_fst_error h2 with hmv | ⟨a, w2, hmv, hrm⟩
      · exact Or.inl (shutil_move_error hmv)
      · exact Or.inr (shutil_rmtree_error hrm)

/-- C2: a target date equal to today or later makes the orchestrator raise the
date-validity error immediately, and the world — filesystem and effect trace
alike — is exactly the initial one: no remote fetch, no run directory, no file
write of any kind. -/
theorem C2_today_or_future_refused (inp : Input) (w : World)
    (h : inp.today ≤ inp.date) :
    mainRun inp w = (.error .dateNotPast, w) := by
  have hg : get_latest_commit_at_date (inp.histories "ClimaCoupler.jl") inp.today inp.date
      = .error .dateNotPast := by
    unfold get_latest_commit_at_date
    rw [if_pos h]
  have hro : resolveOne inp "ClimaCoupler.jl" w = (.error .dateNotPast, w) := by
    unfold resolveOne
    rw [hg]
    rfl
  have hres : get_repo_revs_at_date inp w = (.error .dateNotPast, w) := by
    unfold get_repo_revs_at_date REPOS
    simp only [resolveRepos]
    rw [obind_eq_error hro]
  unfold mainRun
  rw [obind_eq_error hres]

/-- A concrete input on which every external step succeeds, shared by the
orchestrator witnesses: the single tracked commit resolves on day 3, the
coordinator archive holds two files, and the simulation writes one artifact
file under the first candidate location. -/
def inpW : Input :=
  { today := 10, date := 3, dateStr := "2024-01-03", envOnly := false,
    histories := fun _ => [⟨"deadbeef", 100⟩],
    couplerTree := [["experiments", "ClimaEarth", "run_amip.jl"], ["config", "x.yml"]],
    juliaOk := true, simOk := true,
    simOutput := [["output", "gpu_amip_progedmf_1M_land_he16", "artifacts", "out.nc"]] }

/-- The empty initial world. -/
def emptyW : World := ⟨[], []⟩

/-- `inpW` with the target date moved past today. -/
def inpFuture : Input := { inpW with date := 11 }

/-- Witness for C2: the theorem applied to a concrete input whose target date
is after today, the hypothesis discharged by computation. -/
theorem C2_today_or_future_refused_witness :
    inpFuture.today ≤ inpFuture.date ∧
    mainRun inpFuture emptyW = (.error .dateNotPast, emptyW) :=
  ⟨by decide, C2_today_or_future_refused inpFuture emptyW (by decide)⟩

/-- C3: either resolution succeeds and the returned mapping has an entry for
every tracked repository of `REPOS`, or resolution raises (the date-validity or
no-commits `ValueError`) and `main` aborts with that error before any
environment work: the filesystem is exactly the initial one — no run directory,
no coordinator copy, no manifest, no config file — and the only effects
performed are remote fetches. -/
theorem C3_resolution_gate (inp : Input) (w : World) :
    (∀ e, (get_repo_revs_at_date inp w).1 = .error e →
        (e = .dateNotPast ∨ ∃ r, e = .noCommits r) ∧
        mainRun inp w = (.error e, (get_repo_revs_at_date inp w).2) ∧
        ((get_repo_revs_at_date inp w).2).fs = w.fs ∧
        ∃ tr, ((get_repo_revs_at_date inp w).2).trace = w.trace ++ tr ∧
          ∀ eff ∈ tr, ∃ r, eff = Eff.fetch r) ∧
    (∀ revs, (get_repo_revs_at_date inp w).1 = .ok revs →
        ∀ repo ∈ REPOS, ∃ c, revs.lookup repo = some c) := by
  obtain ⟨hfs, htr, herr, hok⟩ := resolveRepos_shape inp REPOS w
  refine ⟨?_, hok⟩
  intro e he
  have hpair : get_repo_revs_at_date inp w = (.error e, (get_repo_revs_at_date inp w).2) := by
    rw [← he]
  refine ⟨herr e he, ?_, hfs, htr⟩
  unfold mainRun
  rw [obind_eq_error hpair]

/-- Any error `main` raises is the date-validity error, a no-commits error, a
package-manager failure, the simulation failure, or one of the artifact
collector's filesystem errors — never the "No revision found" `ValueError`. -/
theorem mainRun_error_classified (inp : Input) (w : World) (e : Err)
    (h : (mainRun inp w).1 = .error e) :
    e = .dateNotPast ∨ (∃ r, e = .noCommits r) ∨ e = .juliaFailed ∨ e = .simFailed ∨
      e = .moveDestExists ∨ e = .fileNotFound := by
  obtain ⟨_, _, herr, hok⟩ := resolveRepos_shape inp REPOS w
  unfold mainRun at h
  rcases obind_fst_error h with hres | ⟨revs, w1, hres, h2⟩
  · rcases herr e hres with h' | h'
    · exact Or.inl h'
    · exact Or.inr (Or.inl h')
  · have hres' : (resolveRepos inp REPOS w).1 = .ok revs := by
      have : resolveRepos inp REPOS w = (.ok revs, w1) := hres
      rw [this]
    have hlook := hok revs hres'
    obtain ⟨cc, hcc⟩ := hlook "ClimaCoupler.jl" (by simp [REPOS])
    simp only [obind, ofs, oemit] at h2
    rw [hcc] at h2
    rcases obind_fst_error h2 with hsc | ⟨a, w4, hsc, h3⟩
    · rw [setupCoupler_eq] at hsc
      simp at hsc
    · rcases obind_fst_error h3 with henv | ⟨b, w5, henv, h4⟩
      · exact Or.inr (Or.inr (Or.inl (envSetup_error inp revs _ e hlook henv)))
      · by_cases heo : inp.envOnly
        · rw [if_pos heo] at h4
          simp [oret] at h4
        · rw [if_neg heo] at h4
          rcases obind_fst_error h4 with hic | ⟨c, w6, hic, h5⟩
          · rw [installConfigs_eq] at hic
            simp at hic
          · rcases obind_fst_error h5 with hrb | ⟨d, w7, hrb, h6⟩
            · rw [runBenchmark_eq] at hrb
              by_cases hs : inp.simOk
              · rw [if_pos hs] at hrb
                simp at hrb
              · rw [if_neg hs] at hrb
                simp only at hrb
                injection hrb with h'
                exact Or.inr (Or.inr (Or.inr (Or.inl h'.symm)))
            · rcases collectArtifacts_error inp w7 e h6 with h' | h'
              · exact Or.inr (Or.inr (Or.inr (Or.inr (Or.inl h'))))
              · exact Or.inr (Or.inr (Or.inr (Or.inr (Or.inr h'))))

/-- C9: the "No revision found for repository" branch of `main`'s package-add
loop is unreachable: whenever `get_repo_revs_at_date` returns normally its
mapping has an entry for every name of `REPOS`, so no run of `main` — whatever
the histories, dates, flags or subprocess outcomes — ever raises the
no-revision error. -/
theorem C9_no_revision_unreachable (inp : Input) (w : World) (r : String) :
    (mainRun inp w).1 ≠ .error (.noRevision r) := by
  intro h
  rcases mainRun_error_classified inp w _ h with h' | ⟨r', h'⟩ | h' | h' | h' | h' <;>
    simp at h'

/-- C7: environment assembly replaces any pre-existing coordinator copy:
whenever `<run_dir>/ClimaCoupler.jl` exists it is removed entirely — the trace
shows the `rmtree` before the archive extraction — and afterwards the nodes at
or under the coordinator directory are exactly the fresh tree at the resolved
revision, so no duplicate or stale file remains, while every node outside the
coordinator directory is kept untouched. -/
theorem C7_coupler_replaced (inp : Input) (rev : String) (w : World) :
    (setupCoupler inp rev w).1 = .ok () ∧
    (∀ q ∈ ((setupCoupler inp rev w).2).fs, (couplerDirOf inp).isPrefixOf q = true →
        q = couplerDirOf inp ∨ ∃ f ∈ inp.couplerTree, q = couplerDirOf inp ++ f) ∧
    (∀ f ∈ inp.couplerTree, couplerDirOf inp ++ f ∈ ((setupCoupler inp rev w).2).fs) ∧
    (∀ q ∈ w.fs, (couplerDirOf inp).isPrefixOf q = false → q ∈ ((setupCoupler inp rev w).2).fs) ∧
    (fsExists w.fs (couplerDirOf inp) = true →
        ((setupCoupler inp rev w).2).trace = w.trace ++
          [Eff.rmtree (couplerDirOf inp),
            Eff.archiveExtract "ClimaCoupler.jl" rev (couplerDirOf inp)]) := by
  rw [setupCoupler_eq]
  by_cases h : fsExists w.fs (couplerDirOf inp)
  · simp only [if_pos h]
    refine ⟨?_, ?_, ?_, ?_, ?_⟩
    · simp
    · intro q hq hpre
      rcases List.mem_cons.mp hq with h1 | h1
      · exact Or.inl h1
      rcases List.mem_append.mp h1 with h2 | h2
      · rcases List.mem_map.mp h2 with ⟨f, hf, hqf⟩
        exact Or.inr ⟨f, hf, hqf.symm⟩
      · have hfalse := (mem_fsRemoveTree.mp h2).2
        rw [hpre] at hfalse
        exact absurd hfalse (by simp)
    · intro f hf
      exact List.mem_cons_of_mem _ (List.mem_append.mpr (Or.inl (List.mem_map_of_mem _ hf)))
    · intro q hq hpre
      exact List.mem_cons_of_mem _ (List.mem_append.mpr (Or.inr (mem_fsRemoveTree.mpr ⟨hq, hpre⟩)))
    · simp
  · simp only [if_neg h]
    have hall : ∀ q ∈ w.fs, (couplerDirOf inp).isPrefixOf q = false :=
      fsExists_eq_false_iff.mp (Bool.eq_false_iff.mpr h)
    refine ⟨?_, ?_, ?_, ?_, fun hc => absurd hc (by simpa using h)⟩
    · simp
    · intro q hq hpre
      rcases List.mem_cons.mp hq with h1 | h1
      · exact Or.inl h1
      rcases List.mem_append.mp h1 with h2 | h2
      · rcases List.mem_map.mp h2 with ⟨f, hf, hqf⟩
        exact Or.inr ⟨f, hf, hqf.symm⟩
      · rw [hall q h2] at hpre
        exact absurd hpre (by simp)
    · intro f hf
      exact List.mem_cons_of_mem _ (List.mem_append.mpr (Or.inl (List.mem_map_of_mem _ hf)))
    · intro q hq _
      exact List.mem_cons_of_mem _ (List.mem_append.mpr (Or.inr hq))

/-- C8: the configuration installer copies exactly the fixed three files — the
two YAML configs and the TOML parameter file — from the coordinator's
checked-out-at-HEAD working copy under `./repos/ClimaCoupler.jl` (never from
the pinned historical copy, which lives under the run directory) into the
corresponding locations under the run directory's coordinator copy; the copies
are unconditional `shutil.copy2` calls: nothing of the content is read or
validated, existing destinations are overwritten, and the phase succeeds on any
filesystem. -/
theorem C8_config_install (inp : Input) (w : World) :
    (installConfigs inp w).1 = .ok () ∧
    ((installConfigs inp w).2).trace = w.trace ++ configCopyEffects inp ∧
    ((installConfigs inp w).2).fs = configDests inp ++ w.fs ∧
    ∀ s d, Eff.copy2 s d ∈ configCopyEffects inp →
      reposCouplerDir.isPrefixOf s = true ∧ (runsDirOf inp).isPrefixOf s = false ∧
      (couplerDirOf inp).isPrefixOf d = true := by
  refine ⟨by rw [installConfigs_eq], by rw [installConfigs_eq], by rw [installConfigs_eq], ?_⟩
  intro s d hmem
  simp only [configCopyEffects, List.mem_cons, List.not_mem_nil, or_false] at hmem
  have hsrc : ∀ l : List String,
      reposCouplerDir.isPrefixOf (reposCouplerDir ++ l) = true :=
    fun l => List.isPrefixOf_iff_prefix.mpr (List.prefix_append _ _)
  have hnotruns : ∀ l : List String,
      (runsDirOf inp).isPrefixOf (reposCouplerDir ++ l) = false := by
    intro l
    exact isPrefixOf_append_cons_ne (p := []) (by decide)
  have hdest : ∀ l : List String,
      (couplerDirOf inp).isPrefixOf (couplerDirOf inp ++ l) = true :=
    fun l => List.isPrefixOf_iff_prefix.mpr (List.prefix_append _ _)
  rcases hmem with h | h | h <;>
    (injection h with hs hd ; subst hs ; subst hd ;
      exact ⟨hsrc _, hnotruns _, hdest _⟩)

/-- The coordinator directory never reaches into the moved artifacts: the two
paths split under the run directory on distinct components. -/
theorem coupler_not_prefix_artifactsDest (inp : Input) (l : List String) :
    (couplerDirOf inp).isPrefixOf (artifactsDestOf inp ++ l) = false := by
  show (runsDirOf inp ++ "ClimaCoupler.jl" :: []).isPrefixOf
    ((runsDirOf inp ++ "artifacts" :: []) ++ l) = false
  rw [List.append_assoc]
  exact isPrefixOf_append_cons_ne (by decide)

/-- After moving an existing source to `<run_dir>/artifacts` and deleting the
coordinator copy, the artifacts directory exists. -/
theorem fsExists_after_move_cleanup (inp : Input) (fs : List Path) (src : Path)
    (hsome : fsExists fs src = true) :
    fsExists (fsRemoveTree (fsRename fs src (artifactsDestOf inp)) (couplerDirOf inp))
      (artifactsDestOf inp) = true := by
  obtain ⟨q, hq, hpre⟩ := fsExists_eq_true_iff.mp hsome
  refine fsExists_eq_true_iff.mpr
    ⟨artifactsDestOf inp ++ q.drop src.length, ?_, ?_⟩
  · refine mem_fsRemoveTree.mpr ⟨?_, coupler_not_prefix_artifactsDest inp _⟩
    unfold fsRename
    refine List.mem_map.mpr ⟨q, hq, ?_⟩
    simp [hpre]
  · exact List.isPrefixOf_iff_prefix.mpr (List.prefix_append _ _)

/-- A file sitting directly in the run directory survives the artifact move
(when the moved source does not reach it) and the coordinator cleanup. -/
theorem runfile_survives (inp : Input) (fs : List Path) (src : Path) (name : String)
    (hname : name ≠ "ClimaCoupler.jl")
    (hsrc : src.isPrefixOf (runsDirOf inp ++ [name]) = false)
    (hmem : (runsDirOf inp ++ [name]) ∈ fs) :
    (runsDirOf inp ++ [name]) ∈
      fsRemoveTree (fsRename fs src (artifactsDestOf inp)) (couplerDirOf inp) := by
  refine mem_fsRemoveTree.mpr ⟨mem_fsRename_untouched hmem hsrc, ?_⟩
  exact isPrefixOf_append_cons_ne (Ne.symm hname)

/-- C4 (amended): the artifact collector's contract after a successful run,
provided `<run_dir>/artifacts` does not already exist and the coordinator copy
is present — the state every first run for a date reaches.  When exactly one of
the two fixed candidate locations exists, that directory is moved to
`<run_dir>/artifacts` — which then exists — and the temporary coordinator copy
is deleted; when no candidate or both candidates exist, a logged warning is the
only observable effect: the filesystem is returned exactly unchanged and the
run ends normally.  (`main` reaches `collectArtifacts` only after the
simulation subprocess exits zero.)  Without the freshness proviso the claim
fails: `shutil.move` nests the new artifacts inside a pre-existing
`<run_dir>/artifacts`, see `C4_artifact_collection_counterexample`. -/
theorem C4_artifact_collection (inp : Input) (w : World) :
    ((fsExists w.fs artifactDir1 = true ∧ fsExists w.fs artifactDir2 = false ∧
        fsExists w.fs (artifactsDestOf inp) = false ∧
        fsExists w.fs (couplerDirOf inp) = true) →
      collectArtifacts inp w =
        (.ok (), ⟨fsRemoveTree (fsRename w.fs artifactDir1 (artifactsDestOf inp))
            (couplerDirOf inp),
          w.trace ++ [Eff.move artifactDir1 (artifactsDestOf inp),
            Eff.rmtree (couplerDirOf inp)]⟩) ∧
      fsExists ((collectArtifacts inp w).2).fs (artifactsDestOf inp) = true ∧
      fsExists ((collectArtifacts inp w).2).fs (couplerDirOf inp) = false) ∧
    ((fsExists w.fs artifactDir1 = false ∧ fsExists w.fs artifactDir2 = true ∧
        fsExists w.fs (artifactsDestOf inp) = false ∧
        fsExists w.fs (couplerDirOf inp) = true) →
      collectArtifacts inp w =
        (.ok (), ⟨fsRemoveTree (fsRename w.fs artifactDir2 (artifactsDestOf inp))
            (couplerDirOf inp),
          w.trace ++ [Eff.move artifactDir2 (artifactsDestOf inp),
            Eff.rmtree (couplerDirOf inp)]⟩) ∧
      fsExists ((collectArtifacts inp w).2).fs (artifactsDestOf inp) = true ∧
      fsExists ((collectArtifacts inp w).2).fs (couplerDirOf inp) = false) ∧
    ((fsExists w.fs artifactDir1 = false ∧ fsExists w.fs artifactDir2 = false) →
      collectArtifacts inp w =
        (.ok (), ⟨w.fs, w.trace ++ [Eff.warn "No artifacts directory found"]⟩)) ∧
    ((fsExists w.fs artifactDir1 = true ∧ fsExists w.fs artifactDir2 = true) →
      collectArtifacts inp w =
        (.ok (), ⟨w.fs, w.trace ++ [Eff.warn "Multiple artifacts directories found"]⟩)) := by
  refine ⟨?_, ?_, ?_, ?_⟩
  · rintro ⟨h1, h2, hfresh, hcoup⟩
    have heq := collectArtifacts_first inp w h1 h2 hfresh hcoup
    refine ⟨heq, ?_, ?_⟩
    · rw [heq]
      exact fsExists_after_move_cleanup inp w.fs artifactDir1 h1
    · rw [heq]
      exact fsExists_fsRemoveTree_self _ _
  · rintro ⟨h1, h2, hfresh, hcoup⟩
    have heq := collectArtifacts_second inp w h1 h2 hfresh hcoup
    refine ⟨heq, ?_, ?_⟩
    · rw [heq]
      exact fsExists_after_move_cleanup inp w.fs artifactDir2 h2
    · rw [heq]
      exact fsExists_fsRemoveTree_self _ _
  · rintro ⟨h1, h2⟩
    exact collectArtifacts_zero inp w h1 h2
  · rintro ⟨h1, h2⟩
    exact collectArtifacts_both inp w h1 h2

/-- A world a rerun after a prior successful run reaches the collector in: the
fresh artifacts sit under the first candidate location, the previous run's
`<run_dir>/artifacts` is still there, and the coordinator copy was
re-extracted. -/
def wRerun : World :=
  ⟨[["output", "gpu_amip_progedmf_1M_land_he16", "artifacts", "out.nc"],
    ["runs", "amip", "2024-01-03", "artifacts", "old.nc"],
    ["runs", "amip", "2024-01-03", "ClimaCoupler.jl", "Project.toml"]], []⟩

/-- A world reaching the collector with the coordinator copy absent. -/
def wNoCoupler : World :=
  ⟨[["output", "gpu_amip_progedmf_1M_land_he16", "artifacts", "out.nc"]], []⟩

/-- Counterexample to C4 as stated: on `wRerun`, exactly one candidate exists,
yet the artifacts are NOT moved to `<run_dir>/artifacts` — `shutil.move` nests
them inside the pre-existing directory, at `<run_dir>/artifacts/artifacts` —
and on `wNoCoupler` the run does not end quietly after the move: the unguarded
`shutil.rmtree` raises `FileNotFoundError`. -/
theorem C4_artifact_collection_counterexample :
    (fsExists wRerun.fs artifactDir1 = true ∧ fsExists wRerun.fs artifactDir2 = false ∧
      fsExists ((collectArtifacts inpW wRerun).2).fs
        (artifactsDestOf inpW ++ ["artifacts"]) = true ∧
      (artifactsDestOf inpW ++ ["out.nc"]) ∉ ((collectArtifacts inpW wRerun).2).fs) ∧
    (fsExists wNoCoupler.fs artifactDir1 = true ∧
      fsExists wNoCoupler.fs artifactDir2 = false ∧
      (collectArtifacts inpW wNoCoupler).1 = .error .fileNotFound) :=
  ⟨⟨by decide, by decide, by decide, by decide⟩, by decide, by decide, by rfl⟩

/-- C10: after a successful artifact move — one candidate present, the
destination `<run_dir>/artifacts` not yet existing so `shutil.move` is a plain
rename, and the coordinator copy present — the final cleanup deletes only the
`<run_dir>/ClimaCoupler.jl` subtree: every node of the moved filesystem outside
that subtree survives and every surviving node was already there — in
particular the recorded `Manifest-v1.11.toml`, the `repo-revs.json` revision
record and the freshly moved `artifacts` directory all remain in the run
directory, and the coordinator copy is gone. -/
theorem C10_cleanup_frame (inp : Input) (w : World)
    (h1 : fsExists w.fs artifactDir1 = true) (h2 : fsExists w.fs artifactDir2 = false)
    (hfresh : fsExists w.fs (artifactsDestOf inp) = false)
    (hcoup : fsExists w.fs (couplerDirOf inp) = true) :
    ((collectArtifacts inp w).2).fs =
      fsRemoveTree (fsRename w.fs artifactDir1 (artifactsDestOf inp)) (couplerDirOf inp) ∧
    (∀ q ∈ fsRename w.fs artifactDir1 (artifactsDestOf inp),
      (couplerDirOf inp).isPrefixOf q = false → q ∈ ((collectArtifacts inp w).2).fs) ∧
    (∀ q ∈ ((collectArtifacts inp w).2).fs,
      q ∈ fsRename w.fs artifactDir1 (artifactsDestOf inp)) ∧
    ((runsDirOf inp ++ ["Manifest-v1.11.toml"]) ∈ w.fs →
      (runsDirOf inp ++ ["Manifest-v1.11.toml"]) ∈ ((collectArtifacts inp w).2).fs) ∧
    ((runsDirOf inp ++ ["repo-revs.json"]) ∈ w.fs →
      (runsDirOf inp ++ ["repo-revs.json"]) ∈ ((collectArtifacts inp w).2).fs) ∧
    fsExists ((collectArtifacts inp w).2).fs (artifactsDestOf inp) = true ∧
    fsExists ((collectArtifacts inp w).2).fs (couplerDirOf inp) = false := by
  have heq := collectArtifacts_first inp w h1 h2 hfresh hcoup
  rw [heq]
  refine ⟨rfl, ?_, ?_, ?_, ?_, ?_, ?_⟩
  · intro q hq hpre
    exact mem_fsRemoveTree.mpr ⟨hq, hpre⟩
  · intro q hq
    exact (mem_fsRemoveTree.mp hq).1
  · intro hmem
    exact runfile_survives inp w.fs artifactDir1 "Manifest-v1.11.toml" (by decide)
      (isPrefixOf_append_cons_ne (p := []) (by decide)) hmem
  · intro hmem
    exact runfile_survives inp w.fs artifactDir1 "repo-revs.json" (by decide)
      (isPrefixOf_append_cons_ne (p := []) (by decide)) hmem
  · exact fsExists_after_move_cleanup inp w.fs artifactDir1 h1
  · exact fsExists_fsRemoveTree_self _ _

/-- A world after a successful simulation: one artifact file under the first
candidate location, the manifest and revision record in the run directory, and
the coordinator copy still present. -/
def wC10 : World :=
  ⟨[["output", "gpu_amip_progedmf_1M_land_he16", "artifacts", "out.nc"],
    ["runs", "amip", "2024-01-03", "Manifest-v1.11.toml"],
    ["runs", "amip", "2024-01-03", "repo-revs.json"],
    ["runs", "amip", "2024-01-03", "ClimaCoupler.jl", "Project.toml"]], []⟩

/-- Witness for C10: the theorem applied to `inpW` and `wC10`, the
exactly-one-candidate hypotheses discharged by computation. -/
theorem C10_cleanup_frame_witness :
    fsExists wC10.fs artifactDir1 = true ∧ fsExists wC10.fs artifactDir2 = false ∧
    fsExists wC10.fs (artifactsDestOf inpW) = false ∧
    fsExists wC10.fs (couplerDirOf inpW) = true ∧
    (((collectArtifacts inpW wC10).2).fs =
      fsRemoveTree (fsRename wC10.fs artifactDir1 (artifactsDestOf inpW)) (couplerDirOf inpW) ∧
    (∀ q ∈ fsRename wC10.fs artifactDir1 (artifactsDestOf inpW),
      (couplerDirOf inpW).isPrefixOf q = false → q ∈ ((collectArtifacts inpW wC10).2).fs) ∧
    (∀ q ∈ ((collectArtifacts inpW wC10).2).fs,
      q ∈ fsRename wC10.fs artifactDir1 (artifactsDestOf inpW)) ∧
    ((runsDirOf inpW ++ ["Manifest-v1.11.toml"]) ∈ wC10.fs →
      (runsDirOf inpW ++ ["Manifest-v1.11.toml"]) ∈ ((collectArtifacts inpW wC10).2).fs) ∧
    ((runsDirOf inpW ++ ["repo-revs.json"]) ∈ wC10.fs →
      (runsDirOf inpW ++ ["repo-revs.json"]) ∈ ((collectArtifacts inpW wC10).2).fs) ∧
    fsExists ((collectArtifacts inpW wC10).2).fs (artifactsDestOf inpW) = true ∧
    fsExists ((collectArtifacts inpW wC10).2).fs (couplerDirOf inpW) = false) :=
  ⟨by decide, by decide, by decide, by decide,
    C10_cleanup_frame inpW wC10 (by decide) (by decide) (by decide) (by decide)⟩

/-- An effect that is neither an artifact move nor a logged warning — the two
effect kinds only the artifact collector produces. -/
def Benign (e : Eff) : Prop :=
  (∀ s d, e ≠ Eff.move s d) ∧ ∀ msg, e ≠ Eff.warn msg

theorem artifactsDest_not_prefix_coupler (inp : Input) (l : List String) :
    (artifactsDestOf inp).isPrefixOf (couplerDirOf inp ++ l) = false := by
  show (runsDirOf inp ++ "artifacts" :: []).isPrefixOf
    ((runsDirOf inp ++ "ClimaCoupler.jl" :: []) ++ l) = false
  rw [List.append_assoc]
  exact isPrefixOf_append_cons_ne (by decide)

theorem artifactsDest_not_prefix_runfile (inp : Input) (name : String)
    (h : "artifacts" ≠ name) :
    (artifactsDestOf inp).isPrefixOf (runsDirOf inp ++ [name]) = false :=
  isPrefixOf_append_cons_ne h

theorem artifactsDest_not_prefix_runsDir (inp : Input) :
    (artifactsDestOf inp).isPrefixOf (runsDirOf inp) = false := by
  apply isPrefixOf_eq_false_of_longer
  simp [artifactsDestOf, runsDirOf]

theorem setupCoupler_artfree (inp : Input) (rev : String) (w : World)
    (h : fsExists w.fs (artifactsDestOf inp) = false) :
    fsExists ((setupCoupler inp rev w).2).fs (artifactsDestOf inp) = false := by
  rw [setupCoupler_eq, fsExists_eq_false_iff]
  intro q hq
  rcases List.mem_cons.mp hq with h1 | h1
  · subst h1
    exact isPrefixOf_append_cons_ne (by decide)
  rcases List.mem_append.mp h1 with h2 | h2
  · rcases List.mem_map.mp h2 with ⟨f, _, hqf⟩
    rw [← hqf]
    exact artifactsDest_not_prefix_coupler inp f
  · by_cases hcd : fsExists w.fs (couplerDirOf inp)
    · rw [if_pos hcd] at h2
      exact fsExists_eq_false_iff.mp h q (mem_fsRemoveTree.mp h2).1
    · rw [if_neg hcd] at h2
      exact fsExists_eq_false_iff.mp h q h2

theorem setupCoupler_trace (inp : Input) (rev : String) (w : World) :
    ∀ e ∈ ((setupCoupler inp rev w).2).trace, e ∈ w.trace ∨ Benign e := by
  rw [setupCoupler_eq]
  intro e he
  rcases List.mem_append.mp he with h | h
  · exact Or.inl h
  · right
    by_cases hcd : fsExists w.fs (couplerDirOf inp) <;> simp [hcd] at h
    · rcases h with h | h <;> subst h <;> exact ⟨fun _ _ => by simp, fun _ => by simp⟩
    · subst h
      exact ⟨fun _ _ => by simp, fun _ => by simp⟩

theorem envSetup_artfree (inp : Input) (revs : List (String × Commit)) (w : World)
    (hl : ∀ repo ∈ REPOS, ∃ c, revs.lookup repo = some c) (hj : inp.juliaOk = true)
    (h : fsExists w.fs (artifactsDestOf inp) = false) :
    fsExists ((envSetup inp revs w).2).fs (artifactsDestOf inp) = false := by
  obtain ⟨_, hfs, _⟩ := envSetup_ok inp revs w hl hj
  rw [hfs, fsExists_cons, fsExists_cons,
    artifactsDest_not_prefix_runfile inp "repo-revs.json" (by decide),
    artifactsDest_not_prefix_runfile inp "Manifest-v1.11.toml" (by decide), h]
  rfl

theorem envSetup_trace (inp : Input) (revs : List (String × Commit)) (w : World)
    (hl : ∀ repo ∈ REPOS, ∃ c, revs.lookup repo = some c) (hj : inp.juliaOk = true) :
    ∀ e ∈ ((envSetup inp revs w).2).trace, e ∈ w.trace ∨ Benign e := by
  obtain ⟨_, _, tr, htr, hshape⟩ := envSetup_ok inp revs w hl hj
  rw [htr]
  intro e he
  rcases List.mem_append.mp he with h | h
  · exact Or.inl h
  · right
    rcases hshape e h with ⟨env, cmd, rfl⟩ | ⟨s, d, rfl⟩ | ⟨p, rfl⟩ <;>
      exact ⟨fun _ _ => by simp, fun _ => by simp⟩

theorem installConfigs_artfree (inp : Input) (w : World)
    (h : fsExists w.fs (artifactsDestOf inp) = false) :
    fsExists ((installConfigs inp w).2).fs (artifactsDestOf inp) = false := by
  rw [installConfigs_eq, fsExists_eq_false_iff]
  intro q hq
  rcases List.mem_append.mp hq with h1 | h1
  · simp only [configDests, List.mem_cons, List.not_mem_nil, or_false] at h1
    rcases h1 with h1 | h1 | h1 <;> subst h1 <;>
      exact artifactsDest_not_prefix_coupler inp _
  · exact fsExists_eq_false_iff.mp h q h1

theorem installConfigs_trace (inp : Input) (w : World) :
    ∀ e ∈ ((installConfigs inp w).2).trace, e ∈ w.trace ∨ Benign e := by
  rw [installConfigs_eq]
  intro e he
  rcases List.mem_append.mp he with h | h
  · exact Or.inl h
  · right
    simp only [configCopyEffects, List.mem_cons, List.not_mem_nil, or_false] at h
    rcases h with h | h | h <;> subst h <;> exact ⟨fun _ _ => by simp, fun _ => by simp⟩

theorem runBenchmark_artfree (inp : Input) (w : World)
    (hout : ∀ q ∈ inp.simOutput, (artifactsDestOf inp).isPrefixOf q = false)
    (h : fsExists w.fs (artifactsDestOf inp) = false) :
    fsExists ((runBenchmark inp w).2).fs (artifactsDestOf inp) = false := by
  rw [runBenchmark_eq, fsExists_eq_false_iff]
  intro q hq
  rcases List.mem_append.mp hq with h1 | h1
  · exact hout q h1
  · exact fsExists_eq_false_iff.mp h q h1

theorem runBenchmark_trace (inp : Input) (w : World) :
    ∀ e ∈ ((runBenchmark inp w).2).trace, e ∈ w.trace ∨ Benign e := by
  rw [runBenchmark_eq]
  intro e he
  rcases List.mem_append.mp he with h | h
  · exact Or.inl h
  · right
    simp only [List.mem_cons, List.not_mem_nil, or_false] at h
    subst h
    exact ⟨fun _ _ => by simp, fun _ => by simp⟩

/-- Computation of a full run whose simulation subprocess fails, all earlier
phases succeeding: `main` raises the simulation failure from the world the
benchmark left behind, and `collectArtifacts` is never entered. -/
theorem mainRun_sim_failed (inp : Input) (w0 w1 : World) (revs : List (String × Commit))
    (cc : Commit) (hcc : revs.lookup "ClimaCoupler.jl" = some cc)
    (hres : get_repo_revs_at_date inp w0 = (.ok revs, w1))
    (hlook : ∀ repo ∈ REPOS, ∃ c, revs.lookup repo = some c)
    (hj : inp.juliaOk = true) (henvo : inp.envOnly = false) (hsim : inp.simOk = false) :
    mainRun inp w0 = (.error .simFailed,
      (runBenchmark inp (installConfigs inp (envSetup inp revs
        (setupCoupler inp cc.rev
          ⟨runsDirOf inp :: w1.fs, w1.trace ++ [Eff.makedirs (runsDirOf inp)]⟩).2).2).2).2) := by
  unfold mainRun
  rw [obind_eq_ok hres]
  show obind (ofs fun fs => runsDirOf inp :: fs) _ w1 = _
  rw [obind_eq_ok (show ofs (fun fs => runsDirOf inp :: fs) w1 =
      (.ok (), ⟨runsDirOf inp :: w1.fs, w1.trace⟩) from rfl)]
  show obind (oemit (Eff.makedirs (runsDirOf inp))) _ ⟨runsDirOf inp :: w1.fs, w1.trace⟩ = _
  rw [obind_eq_ok (show oemit (Eff.makedirs (runsDirOf inp)) ⟨runsDirOf inp :: w1.fs, w1.trace⟩ =
      (.ok (), ⟨runsDirOf inp :: w1.fs, w1.trace ++ [Eff.makedirs (runsDirOf inp)]⟩) from rfl)]
  rw [hcc]
  show obind (setupCoupler inp cc.rev) _
      ⟨runsDirOf inp :: w1.fs, w1.trace ++ [Eff.makedirs (runsDirOf inp)]⟩ = _
  rw [obind_eq_ok (show setupCoupler inp cc.rev
      ⟨runsDirOf inp :: w1.fs, w1.trace ++ [Eff.makedirs (runsDirOf inp)]⟩ =
      (.ok (), (setupCoupler inp cc.rev
        ⟨runsDirOf inp :: w1.fs, w1.trace ++ [Eff.makedirs (runsDirOf inp)]⟩).2) from by
      rw [setupCoupler_eq])]
  show obind (envSetup inp revs) _ (setupCoupler inp cc.rev
      ⟨runsDirOf inp :: w1.fs, w1.trace ++ [Eff.makedirs (runsDirOf inp)]⟩).2 = _
  rw [obind_eq_ok (show envSetup inp revs (setupCoupler inp cc.rev
      ⟨runsDirOf inp :: w1.fs, w1.trace ++ [Eff.makedirs (runsDirOf inp)]⟩).2 =
      (.ok (), (envSetup inp revs (setupCoupler inp cc.rev
        ⟨runsDirOf inp :: w1.fs, w1.trace ++ [Eff.makedirs (runsDirOf inp)]⟩).2).2) from by
      rw [← (envSetup_ok inp revs _ hlook hj).1])]
  rw [if_neg (show ¬ (inp.envOnly = true) by simp [henvo])]
  show obind (installConfigs inp) _ (envSetup inp revs (setupCoupler inp cc.rev
      ⟨runsDirOf inp :: w1.fs, w1.trace ++ [Eff.makedirs (runsDirOf inp)]⟩).2).2 = _
  rw [obind_eq_ok (show installConfigs inp (envSetup inp revs (setupCoupler inp cc.rev
      ⟨runsDirOf inp :: w1.fs, w1.trace ++ [Eff.makedirs (runsDirOf inp)]⟩).2).2 =
      (.ok (), (installConfigs inp (envSetup inp revs (setupCoupler inp cc.rev
        ⟨runsDirOf inp :: w1.fs, w1.trace ++ [Eff.makedirs (runsDirOf inp)]⟩).2).2).2) from by
      rw [installConfigs_eq])]
  show obind (runBenchmark inp) _ (installConfigs inp (envSetup inp revs (setupCoupler inp cc.rev
      ⟨runsDirOf inp :: w1.fs, w1.trace ++ [Eff.makedirs (runsDirOf inp)]⟩).2).2).2 = _
  rw [obind_eq_error (show runBenchmark inp (installConfigs inp (envSetup inp revs
      (setupCoupler inp cc.rev ⟨runsDirOf inp :: w1.fs,
        w1.trace ++ [Eff.makedirs (runsDirOf inp)]⟩).2).2).2 =
      (.error .simFailed, (runBenchmark inp (installConfigs inp (envSetup inp revs
        (setupCoupler inp cc.rev ⟨runsDirOf inp :: w1.fs,
          w1.trace ++ [Eff.makedirs (runsDirOf inp)]⟩).2).2).2).2) from by
      rw [runBenchmark_eq, hsim]
      simp)]

/-- C5: when the simulation subprocess exits non-zero — resolution, the
coordinator copy and the package-manager steps all having succeeded — `main`
aborts with the simulation failure (the exception propagates, there is no
retry), artifact collection never runs: every effect of the final trace either
was already in the initial trace or is neither a move nor a warning (the two
effects only the collector produces), and the run directory retains no
`artifacts` subdirectory. -/
theorem C5_sim_failure (inp : Input) (w : World) (revs : List (String × Commit))
    (hres : (get_repo_revs_at_date inp w).1 = .ok revs)
    (hj : inp.juliaOk = true) (henvo : inp.envOnly = false) (hsim : inp.simOk = false)
    (h0 : fsExists w.fs (artifactsDestOf inp) = false)
    (hout : ∀ q ∈ inp.simOutput, (artifactsDestOf inp).isPrefixOf q = false) :
    (mainRun inp w).1 = .error .simFailed ∧
    (∀ e ∈ ((mainRun inp w).2).trace, e ∈ w.trace ∨ Benign e) ∧
    fsExists ((mainRun inp w).2).fs (artifactsDestOf inp) = false := by
  obtain ⟨hfs1, ⟨trF, htr1, hfetch⟩, _, hok⟩ := resolveRepos_shape inp REPOS w
  have hlook : ∀ repo ∈ REPOS, ∃ c, revs.lookup repo = some c := hok revs hres
  obtain ⟨cc, hcc⟩ := hlook "ClimaCoupler.jl" (by simp [REPOS])
  have hsplit : get_repo_revs_at_date inp w = (.ok revs, (get_repo_revs_at_date inp w).2) := by
    rw [← hres]
  have hfs1' : ((get_repo_revs_at_date inp w).2).fs = w.fs := hfs1
  have htrg : ((get_repo_revs_at_date inp w).2).trace = w.trace ++ trF := htr1
  have hfinal := mainRun_sim_failed inp w ((get_repo_revs_at_date inp w).2) revs cc hcc
    hsplit hlook hj henvo hsim
  rw [hfinal]
  refine ⟨rfl, ?_, ?_⟩
  · intro e he
    rcases runBenchmark_trace inp _ e he with h6 | h6
    · rcases installConfigs_trace inp _ e h6 with h5 | h5
      · rcases envSetup_trace inp revs _ hlook hj e h5 with h4 | h4
        · rcases setupCoupler_trace inp cc.rev _ e h4 with h3 | h3
          · rcases List.mem_append.mp h3 with hX | hX
            · rw [htrg] at hX
              rcases List.mem_append.mp hX with hY | hY
              · exact Or.inl hY
              · obtain ⟨r, hr⟩ := hfetch e hY
                subst hr
                exact Or.inr ⟨fun _ _ => by simp, fun _ => by simp⟩
            · simp only [List.mem_cons, List.not_mem_nil, or_false] at hX
              subst hX
              exact Or.inr ⟨fun _ _ => by simp, fun _ => by simp⟩
          · exact Or.inr h3
        · exact Or.inr h4
      · exact Or.inr h5
    · exact Or.inr h6
  · apply runBenchmark_artfree inp _ hout
    apply installConfigs_artfree
    apply envSetup_artfree inp revs _ hlook hj
    apply setupCoupler_artfree
    show fsExists (runsDirOf inp :: ((get_repo_revs_at_date inp w).2).fs)
      (artifactsDestOf inp) = false
    rw [fsExists_cons, artifactsDest_not_prefix_runsDir inp, hfs1', h0]
    rfl

/-- `inpW` with a failing simulation subprocess. -/
def inpSimFail : Input := { inpW with simOk := false }

/-- The mapping `get_repo_revs_at_date` computes for `inpSimFail` from the
empty world: every tracked repository resolves to the single test commit. -/
def revsW : List (String × Commit) := REPOS.map fun r => (r, ⟨"deadbeef", 100⟩)

/-- Witness for C5: the theorem applied to `inpSimFail` from the empty world,
every hypothesis discharged by computation. -/
theorem C5_sim_failure_witness :
    (get_repo_revs_at_date inpSimFail emptyW).1 = .ok revsW ∧
    inpSimFail.juliaOk = true ∧ inpSimFail.envOnly = false ∧ inpSimFail.simOk = false ∧
    fsExists emptyW.fs (artifactsDestOf inpSimFail) = false ∧
    (∀ q ∈ inpSimFail.simOutput, (artifactsDestOf inpSimFail).isPrefixOf q = false) ∧
    ((mainRun inpSimFail emptyW).1 = .error .simFailed ∧
      (∀ e ∈ ((mainRun inpSimFail emptyW).2).trace, e ∈ emptyW.trace ∨ Benign e) ∧
      fsExists ((mainRun inpSimFail emptyW).2).fs (artifactsDestOf inpSimFail) = false) :=
  ⟨by rfl, by decide, by decide, by decide, by decide, by decide,
    C5_sim_failure inpSimFail emptyW revsW (by rfl) (by decide) (by decide) (by decide)
      (by decide) (by decide)⟩

end ClimaPerf
